import Mathlib

/-!
Verification development for the planetmint transaction core and its
tarantool-backed store.

The definitions below are a shallow embedding of:
  * src/planetmint/transactions/common/transaction.py  (Transaction model,
    signing pipeline, id validation, transfer validation),
  * src/planetmint/backend/tarantool/query.py          (latest_block,
    get_validator_set),
together with models of repository components that the above import but
which are not part of the source tree handed to us (canonical JSON
serialization from utils.py, SHA3-256 hex from crypto.py, Input / Output /
TransactionLink conversion helpers, and the external cryptoconditions
library).  Every such modelled definition carries a doc comment naming what
is missing and the spec sentence it follows.
-/

set_option maxRecDepth 1000000

/-- Error kinds raised by the embedded code.  Python exception classes are
collapsed to constructor tags; messages are dropped. -/
inductive Err where
  | valueError
  | typeError
  | keyError
  | indexError
  | attributeError
  | invalidHash
  | inputDoesNotExist
  | doubleSpend
  | invalidSignature
  | amountError
  | assetIdMismatch
  | keypairMismatch
  | parsingError
  | asn1DecodeError
  | asn1EncodeError
  deriving DecidableEq, Repr

/-- JSON-shaped values (nested string-keyed mappings, sequences, strings,
integers, booleans, null), as carried by transaction asset / metadata
payloads. -/
inductive Json where
  | null : Json
  | bool : Bool → Json
  | num : Int → Json
  | str : String → Json
  | arr : List Json → Json
  | obj : List (String × Json) → Json

/-- Structural equality test on Json values, standing in for Python object
equality on parsed JSON data. -/
def jsonBEq : Json → Json → Bool
  | .null, .null => true
  | .bool a, .bool b => a == b
  | .num a, .num b => a == b
  | .str a, .str b => a == b
  | .arr a, .arr b => jsonListBEq a b
  | .obj a, .obj b => jsonKvBEq a b
  | _, _ => false
where
  jsonListBEq : List Json → List Json → Bool
    | [], [] => true
    | x :: xs, y :: ys => jsonBEq x y && jsonListBEq xs ys
    | _, _ => false
  jsonKvBEq : List (String × Json) → List (String × Json) → Bool
    | [], [] => true
    | (k, v) :: xs, (k2, v2) :: ys => k == k2 && jsonBEq v v2 && jsonKvBEq xs ys
    | _, _ => false

def Json.isObj : Json → Bool
  | .obj _ => true
  | _ => false

def Json.hasKey (j : Json) (k : String) : Bool :=
  match j with
  | .obj kvs => kvs.any (fun kv => kv.1 == k)
  | _ => false

/-- Python dict subscript `j[k]`: KeyError when the key is missing,
TypeError when the value is not a mapping. -/
def jsonLookup (j : Json) (k : String) : Except Err Json :=
  match j with
  | .obj kvs =>
    match kvs.find? (fun kv => kv.1 == k) with
    | some kv => .ok kv.2
    | none => .error .keyError
  | _ => .error .typeError

/-- JSON string escaping for the canonical encoder (quote, backslash and
control characters; ensure_ascii is off so other characters pass through). -/
def escapeChar (c : Char) : List Char :=
  if c = '"' then ['\\', '"']
  else if c = '\\' then ['\\', '\\']
  else if c = Char.ofNat 8 then ['\\', 'b']
  else if c = Char.ofNat 9 then ['\\', 't']
  else if c = Char.ofNat 10 then ['\\', 'n']
  else if c = Char.ofNat 12 then ['\\', 'f']
  else if c = Char.ofNat 13 then ['\\', 'r']
  else [c]

def jstr (s : String) : String :=
  ⟨'"' :: s.data.foldr (fun c acc => escapeChar c ++ acc) ['"']⟩

/-- Lexicographic code-point comparison of character lists. -/
def charListLt : List Char → List Char → Bool
  | [], [] => false
  | [], _ :: _ => true
  | _ :: _, [] => false
  | a :: as, b :: bs =>
    if a.toNat < b.toNat then true
    else if b.toNat < a.toNat then false
    else charListLt as bs

/-- Lexicographic code-point order on strings (the byte order rapidjson
sort_keys uses coincides with code-point order on the ASCII keys of the
transaction schema). -/
def strLt (a b : String) : Bool := charListLt a.data b.data

/-- Stable insertion of a rendered key/value pair by key. -/
def insKv (p : String × String) : List (String × String) → List (String × String)
  | [] => [p]
  | q :: rest => if strLt p.1 q.1 then p :: q :: rest else q :: insKv p rest

def sortKvs (l : List (String × String)) : List (String × String) :=
  l.foldr insKv []

def joinObjItems : List (String × String) → String
  | [] => ""
  | [p] => jstr p.1 ++ ":" ++ p.2
  | p :: rest => jstr p.1 ++ ":" ++ p.2 ++ "," ++ joinObjItems rest

def joinArrItems : List String → String
  | [] => ""
  | [s] => s
  | s :: rest => s ++ "," ++ joinArrItems rest

/-- Modelled from the spec: canonical serialization (utils.serialize /
rapidjson.dumps with sort_keys=True, ensure_ascii=False, compact output;
utils.py is not under src/).  Object keys are sorted lexicographically, no
insignificant whitespace, UTF-8 output (section 4.1 of the spec). -/
def serialize : Json → String
  | .null => "null"
  | .bool b => if b then "true" else "false"
  | .num n => toString n
  | .str s => jstr s
  | .arr xs => "[" ++ joinArrItems (serializeList xs) ++ "]"
  | .obj kvs => "\x7b" ++ joinObjItems (sortKvs (serializeKvs kvs)) ++ "\x7d"
where
  serializeList : List Json → List String
    | [] => []
    | x :: xs => serialize x :: serializeList xs
  serializeKvs : List (String × Json) → List (String × String)
    | [] => []
    | (k, v) :: rest => (k, serialize v) :: serializeKvs rest

/- ---------------------------------------------------------------------
SHA3-256 (FIPS 202), used by crypto.hash_data.  The Keccak-f[1600] state is
kept as twenty-five 64-bit lanes represented as Nat with explicit masking.
--------------------------------------------------------------------- -/

def mask64 : Nat := 18446744073709551615

def rotl64 (x n : Nat) : Nat :=
  ((x <<< n) &&& mask64) ||| (x >>> (64 - n))

structure KState where
  (a0 a1 a2 a3 a4 a5 a6 a7 a8 a9 a10 a11 a12 : Nat)
  (a13 a14 a15 a16 a17 a18 a19 a20 a21 a22 a23 a24 : Nat)

def KState.zero : KState :=
  ⟨0, 0, 0, 0, 0, 0, 0, 0, 0, 0, 0, 0, 0, 0, 0, 0, 0, 0, 0, 0, 0, 0, 0, 0, 0⟩

def keccakRound (s : KState) (rc : Nat) : KState :=
  let c0 := s.a0 ^^^ s.a5 ^^^ s.a10 ^^^ s.a15 ^^^ s.a20
  let c1 := s.a1 ^^^ s.a6 ^^^ s.a11 ^^^ s.a16 ^^^ s.a21
  let c2 := s.a2 ^^^ s.a7 ^^^ s.a12 ^^^ s.a17 ^^^ s.a22
  let c3 := s.a3 ^^^ s.a8 ^^^ s.a13 ^^^ s.a18 ^^^ s.a23
  let c4 := s.a4 ^^^ s.a9 ^^^ s.a14 ^^^ s.a19 ^^^ s.a24
  let d0 := c4 ^^^ rotl64 c1 1
  let d1 := c0 ^^^ rotl64 c2 1
  let d2 := c1 ^^^ rotl64 c3 1
  let d3 := c2 ^^^ rotl64 c4 1
  let d4 := c3 ^^^ rotl64 c0 1
  let t0 := s.a0 ^^^ d0
  let t1 := s.a1 ^^^ d1
  let t2 := s.a2 ^^^ d2
  let t3 := s.a3 ^^^ d3
  let t4 := s.a4 ^^^ d4
  let t5 := s.a5 ^^^ d0
  let t6 := s.a6 ^^^ d1
  let t7 := s.a7 ^^^ d2
  let t8 := s.a8 ^^^ d3
  let t9 := s.a9 ^^^ d4
  let t10 := s.a10 ^^^ d0
  let t11 := s.a11 ^^^ d1
  let t12 := s.a12 ^^^ d2
  let t13 := s.a13 ^^^ d3
  let t14 := s.a14 ^^^ d4
  let t15 := s.a15 ^^^ d0
  let t16 := s.a16 ^^^ d1
  let t17 := s.a17 ^^^ d2
  let t18 := s.a18 ^^^ d3
  let t19 := s.a19 ^^^ d4
  let t20 := s.a20 ^^^ d0
  let t21 := s.a21 ^^^ d1
  let t22 := s.a22 ^^^ d2
  let t23 := s.a23 ^^^ d3
  let t24 := s.a24 ^^^ d4
  let b0 := t0
  let b1 := rotl64 t6 44
  let b2 := rotl64 t12 43
  let b3 := rotl64 t18 21
  let b4 := rotl64 t24 14
  let b5 := rotl64 t3 28
  let b6 := rotl64 t9 20
  let b7 := rotl64 t10 3
  let b8 := rotl64 t16 45
  let b9 := rotl64 t22 61
  let b10 := rotl64 t1 1
  let b11 := rotl64 t7 6
  let b12 := rotl64 t13 25
  let b13 := rotl64 t19 8
  let b14 := rotl64 t20 18
  let b15 := rotl64 t4 27
  let b16 := rotl64 t5 36
  let b17 := rotl64 t11 10
  let b18 := rotl64 t17 15
  let b19 := rotl64 t23 56
  let b20 := rotl64 t2 62
  let b21 := rotl64 t8 55
  let b22 := rotl64 t14 39
  let b23 := rotl64 t15 41
  let b24 := rotl64 t21 2
  { a0 := (b0 ^^^ ((mask64 ^^^ b1) &&& b2)) ^^^ rc
    a1 := b1 ^^^ ((mask64 ^^^ b2) &&& b3)
    a2 := b2 ^^^ ((mask64 ^^^ b3) &&& b4)
    a3 := b3 ^^^ ((mask64 ^^^ b4) &&& b0)
    a4 := b4 ^^^ ((mask64 ^^^ b0) &&& b1)
    a5 := b5 ^^^ ((mask64 ^^^ b6) &&& b7)
    a6 := b6 ^^^ ((mask64 ^^^ b7) &&& b8)
    a7 := b7 ^^^ ((mask64 ^^^ b8) &&& b9)
    a8 := b8 ^^^ ((mask64 ^^^ b9) &&& b5)
    a9 := b9 ^^^ ((mask64 ^^^ b5) &&& b6)
    a10 := b10 ^^^ ((mask64 ^^^ b11) &&& b12)
    a11 := b11 ^^^ ((mask64 ^^^ b12) &&& b13)
    a12 := b12 ^^^ ((mask64 ^^^ b13) &&& b14)
    a13 := b13 ^^^ ((mask64 ^^^ b14) &&& b10)
    a14 := b14 ^^^ ((mask64 ^^^ b10) &&& b11)
    a15 := b15 ^^^ ((mask64 ^^^ b16) &&& b17)
    a16 := b16 ^^^ ((mask64 ^^^ b17) &&& b18)
    a17 := b17 ^^^ ((mask64 ^^^ b18) &&& b19)
    a18 := b18 ^^^ ((mask64 ^^^ b19) &&& b15)
    a19 := b19 ^^^ ((mask64 ^^^ b15) &&& b16)
    a20 := b20 ^^^ ((mask64 ^^^ b21) &&& b22)
    a21 := b21 ^^^ ((mask64 ^^^ b22) &&& b23)
    a22 := b22 ^^^ ((mask64 ^^^ b23) &&& b24)
    a23 := b23 ^^^ ((mask64 ^^^ b24) &&& b20)
    a24 := b24 ^^^ ((mask64 ^^^ b20) &&& b21) }

/-- One step of the FIPS 202 rc LFSR on an 8-bit register
(feedback polynomial x^8 + x^6 + x^5 + x^4 + 1). -/
def rcStep (r : Nat) : Nat :=
  let r2 := r <<< 1
  if r2 ≥ 256 then (r2 ^^^ 0x71) % 256 else r2

def rcReg : Nat → Nat
  | 0 => 1
  | t + 1 => rcStep (rcReg t)

/-- Bit rc(t) of FIPS 202 Algorithm 5. -/
def rcBit (t : Nat) : Nat := rcReg t % 2

/-- Round constant RC[ir]: bit rc(j + 7 ir) at position 2^j - 1. -/
def roundConstantOf (ir : Nat) : Nat :=
  (List.range 7).foldl (fun acc j => acc + rcBit (j + 7 * ir) * 2 ^ (2 ^ j - 1)) 0

def keccakRCs : List Nat := (List.range 24).map roundConstantOf

def keccakF (s : KState) : KState := keccakRCs.foldl keccakRound s

/-- SHA3 pad10*1 with domain suffix 0x06, rate 136 bytes. -/
def padSha3 (m : List Nat) : List Nat :=
  let padLen := 136 - m.length % 136
  if padLen = 1 then m ++ [0x86]
  else m ++ [0x06] ++ List.replicate (padLen - 2) 0 ++ [0x80]

def bytesToLane (bs : List Nat) : Nat :=
  bs.foldr (fun b acc => acc * 256 + b) 0

def laneAt (bl : List Nat) (i : Nat) : Nat :=
  bytesToLane ((bl.drop (8 * i)).take 8)

def absorbBlock (s : KState) (bl : List Nat) : KState :=
  keccakF
    { a0 := s.a0 ^^^ laneAt bl 0, a1 := s.a1 ^^^ laneAt bl 1
      a2 := s.a2 ^^^ laneAt bl 2, a3 := s.a3 ^^^ laneAt bl 3
      a4 := s.a4 ^^^ laneAt bl 4, a5 := s.a5 ^^^ laneAt bl 5
      a6 := s.a6 ^^^ laneAt bl 6, a7 := s.a7 ^^^ laneAt bl 7
      a8 := s.a8 ^^^ laneAt bl 8, a9 := s.a9 ^^^ laneAt bl 9
      a10 := s.a10 ^^^ laneAt bl 10, a11 := s.a11 ^^^ laneAt bl 11
      a12 := s.a12 ^^^ laneAt bl 12, a13 := s.a13 ^^^ laneAt bl 13
      a14 := s.a14 ^^^ laneAt bl 14, a15 := s.a15 ^^^ laneAt bl 15
      a16 := s.a16 ^^^ laneAt bl 16
      a17 := s.a17, a18 := s.a18, a19 := s.a19, a20 := s.a20
      a21 := s.a21, a22 := s.a22, a23 := s.a23, a24 := s.a24 }

def chunksGo : Nat → List Nat → List (List Nat)
  | 0, _ => []
  | _, [] => []
  | fuel + 1, l => l.take 136 :: chunksGo fuel (l.drop 136)

def laneToBytes : Nat → Nat → List Nat
  | 0, _ => []
  | n + 1, v => (v % 256) :: laneToBytes n (v / 256)

def sha3Bytes (m : List Nat) : List Nat :=
  let p := padSha3 m
  let st := (chunksGo p.length p).foldl absorbBlock KState.zero
  laneToBytes 8 st.a0 ++ laneToBytes 8 st.a1 ++ laneToBytes 8 st.a2 ++ laneToBytes 8 st.a3

def hexDigit (n : Nat) : Char :=
  Char.ofNat (if n < 10 then 48 + n else 87 + n)

def byteHex (b : Nat) : List Char := [hexDigit (b / 16), hexDigit (b % 16)]

def bytesHex (l : List Nat) : String :=
  ⟨l.foldr (fun b acc => byteHex b ++ acc) []⟩

def charUtf8 (c : Char) : List Nat :=
  let n := c.toNat
  if n < 0x80 then [n]
  else if n < 0x800 then [0xC0 ||| (n >>> 6), 0x80 ||| (n &&& 0x3F)]
  else if n < 0x10000 then
    [0xE0 ||| (n >>> 12), 0x80 ||| ((n >>> 6) &&& 0x3F), 0x80 ||| (n &&& 0x3F)]
  else
    [0xF0 ||| (n >>> 18), 0x80 ||| ((n >>> 12) &&& 0x3F),
     0x80 ||| ((n >>> 6) &&& 0x3F), 0x80 ||| (n &&& 0x3F)]

def strBytes (s : String) : List Nat :=
  s.data.foldr (fun c acc => charUtf8 c ++ acc) []

/-- Modelled from the spec: crypto.hash_data (crypto.py is not under src/):
lowercase-hex SHA3-256 of the UTF-8 bytes of the input string (spec
section 4.1). -/
def hash_data (s : String) : String := bytesHex (sha3Bytes (strBytes s))

/- ---------------------------------------------------------------------
Cryptoconditions model.  The cryptoconditions package is an external
dependency (not part of this repository), so it is modelled from the spec
(section 4.2): Ed25519Sha256 leaves and ThresholdSha256 nodes, with
deterministic signing, condition URIs determined by the condition tree, and
fulfillment URIs that encode the signed tree.
--------------------------------------------------------------------- -/

/-- Modelled from the spec: deterministic Ed25519 signing (RFC 8032); the
signature is a pure function of private key and message digest.  The
concrete byte pattern is irrelevant to every claim, so the signature is
represented as an injective pairing of key and digest. -/
def ed25519Sign (sk digest : String) : String := "sig:" ++ sk ++ ":" ++ digest

/-- Modelled from the spec: public-key derivation from an Ed25519 private
key (crypto.PrivateKey / get_verifying_key, not under src/), as a
deterministic injective map. -/
def gen_public_key (sk : String) : String := "pub:" ++ sk

def skFromPk (pk : String) : Option String :=
  if pk.startsWith "pub:" then some (pk.drop 4) else none

/-- Modelled from the spec: Ed25519 verification succeeds exactly on the
signature produced by the matching private key over the same digest. -/
def ed25519Verify (pk digest sig : String) : Bool :=
  match skFromPk pk with
  | some sk => sig == ed25519Sign sk digest
  | none => false

/-- Cryptocondition fulfillment trees: Ed25519Sha256 leaves (public key and
optional attached signature) and ThresholdSha256 nodes (threshold and
ordered subconditions). -/
inductive Ffill where
  | ed25519 (public_key : String) (signature : Option String)
  | threshold (t : Nat) (subs : List Ffill)

/-- Count of fully signed fulfillments in a list (mutual with isSigned). -/
def Ffill.isSigned : Ffill → Bool
  | .ed25519 _ sig => sig.isSome
  | .threshold t subs => countSigned subs ≥ t
where
  countSigned : List Ffill → Nat
    | [] => 0
    | f :: rest => (if Ffill.isSigned f then 1 else 0) + countSigned rest

/-- Condition URI: determined by the condition tree alone, independent of
attached signatures (spec: equal iff conditions are semantically equal). -/
def conditionUri : Ffill → String
  | .ed25519 pk _ => "cc:ed25519:" ++ pk
  | .threshold t subs => "cc:threshold:" ++ toString t ++ ":[" ++ joinArrItems (conditionUriList subs) ++ "]"
where
  conditionUriList : List Ffill → List String
    | [] => []
    | f :: rest => conditionUri f :: conditionUriList rest

/-- Fulfillment URI body: encodes the signed tree (signatures included). -/
def ffillUriStr : Ffill → String
  | .ed25519 pk sig =>
    "cf:ed25519:" ++ pk ++ ":" ++ (match sig with | some s => s | none => "-")
  | .threshold t subs => "cf:threshold:" ++ toString t ++ ":[" ++ joinArrItems (ffillUriStrList subs) ++ "]"
where
  ffillUriStrList : List Ffill → List String
    | [] => []
    | f :: rest => ffillUriStr f :: ffillUriStrList rest

/-- Signature-stripped view of a fulfillment tree, i.e. the condition
"details" structure (_fulfillment_to_details keeps only type, public key,
threshold and subconditions). -/
def stripSigs : Ffill → Ffill
  | .ed25519 pk _ => .ed25519 pk none
  | .threshold t subs => .threshold t (stripSigsList subs)
where
  stripSigsList : List Ffill → List Ffill
    | [] => []
    | f :: rest => stripSigs f :: stripSigsList rest

/-- Condition details rendered as a JSON value (wire `condition.details`). -/
def detailsJson : Ffill → Json
  | .ed25519 pk _ =>
    .obj [("public_key", .str pk), ("type", .str "ed25519-sha-256")]
  | .threshold t subs =>
    .obj [("subconditions", .arr (detailsJsonList subs)),
          ("threshold", .num t), ("type", .str "threshold-sha-256")]
where
  detailsJsonList : List Ffill → List Json
    | [] => []
    | f :: rest => detailsJson f :: detailsJsonList rest

/-- Fulfillment URIs on the wire.  `uri f` stands for the string
serialize_uri produces from the signed tree `f` (rendered by ffillUriStr in
the canonical JSON), `detailsW f` for the structured details fallback that
Input.to_dict emits when the fulfillment cannot be serialized, and
`malformed s` for any string the parser rejects. -/
inductive UriWire where
  | uri (f : Ffill)
  | detailsW (f : Ffill)
  | malformed (s : String)

/-- Modelled from the spec: Fulfillment.serialize_uri.  Serializing an
unsigned (or under-signed threshold) fulfillment raises an ASN.1 encoding
error; a fully signed fulfillment serializes to its URI. -/
def serializeUri (f : Ffill) : Except Err UriWire :=
  if f.isSigned then .ok (.uri f) else .error .asn1EncodeError

/-- Modelled from the spec: Fulfillment.from_uri, inverse of serialize_uri;
fails with a parsing error on malformed input. -/
def fromUri : UriWire → Except Err Ffill
  | .uri f => .ok f
  | .detailsW _ => .error .parsingError
  | .malformed _ => .error .parsingError

/-- Modelled from the spec: fulfillment validation against a message
digest: every Ed25519 leaf signature verifies against its key, and every
threshold node has at least t satisfied subconditions (section 4.2). -/
def ffillValidate (f : Ffill) (digest : String) : Bool :=
  match f with
  | .ed25519 pk sig =>
    match sig with
    | some s => ed25519Verify pk digest s
    | none => false
  | .threshold t subs => countValid subs digest ≥ t
where
  countValid : List Ffill → String → Nat
    | [], _ => 0
    | f :: rest, digest => (if ffillValidate f digest then 1 else 0) + countValid rest digest

/-- Modelled from the spec: ThresholdSha256.get_subcondition_from_vk finds
Ed25519 leaves (at any depth) whose verifying key matches; this predicate
asks whether at least one such leaf exists. -/
def hasVk (f : Ffill) (vk : String) : Bool :=
  match f with
  | .ed25519 pk _ => pk == vk
  | .threshold _ subs => hasVkList subs vk
where
  hasVkList : List Ffill → String → Bool
    | [], _ => false
    | f :: rest, vk => hasVk f vk || hasVkList rest vk

/-- Sign every Ed25519 leaf whose key matches vk (subffill.sign over all
matches returned by get_subcondition_from_vk). -/
def signMatching (f : Ffill) (vk sk digest : String) : Ffill :=
  match f with
  | .ed25519 pk sig =>
    if pk == vk then .ed25519 pk (some (ed25519Sign sk digest)) else .ed25519 pk sig
  | .threshold t subs => .threshold t (signMatchingList subs vk sk digest)
where
  signMatchingList : List Ffill → String → String → String → List Ffill
    | [], _, _, _ => []
    | f :: rest, vk, sk, digest => signMatching f vk sk digest :: signMatchingList rest vk sk digest

/- ---------------------------------------------------------------------
Transaction data model (transaction.py) plus the wire (dict) form.
TransactionLink, Input and Output conversion helpers live in repository
files not under src/ (transaction_link.py, input.py, output.py) and are
modelled from the spec (sections 3 and 6).
--------------------------------------------------------------------- -/

structure TransactionLink where
  txid : String
  output : Nat

/-- Modelled from the spec: TransactionLink.to_uri with empty path prefix. -/
def TransactionLink.to_uri (l : TransactionLink) : String :=
  "/transactions/" ++ l.txid ++ "/outputs/" ++ toString l.output

structure Input where
  fulfillment : Option Ffill
  owners_before : List String
  fulfills : Option TransactionLink

structure Output where
  fulfillment : Ffill
  public_keys : List String
  amount : Nat

/-- Wire form of an input dict. -/
structure InputWire where
  owners_before : List String
  fulfills : Option TransactionLink
  fulfillment : Option UriWire

/-- Wire form of an output dict.  The amount travels as a decimal string;
the canonical JSON renderer below prints it as such. -/
structure OutputWire where
  public_keys : List String
  amount : Nat
  details : Ffill
  uri : String

/-- Wire form of a transaction dict: exactly the seven keys that
Transaction.to_dict emits.  A missing id key and a null id are conflated
as `none` (validate_id raises InvalidHash in both cases). -/
structure TxWire where
  id : Option String
  version : String
  operation : String
  asset : Json
  metadata : Option Json
  inputs : List InputWire
  outputs : List OutputWire

def uriWireJson : UriWire → Json
  | .uri f => .str (ffillUriStr f)
  | .detailsW f => detailsJson f
  | .malformed s => .str s

def linkJson (l : TransactionLink) : Json :=
  .obj [("output_index", .num l.output), ("transaction_id", .str l.txid)]

def inputWireJson (i : InputWire) : Json :=
  .obj [("owners_before", .arr (i.owners_before.map .str)),
        ("fulfills", match i.fulfills with | none => .null | some l => linkJson l),
        ("fulfillment", match i.fulfillment with | none => .null | some u => uriWireJson u)]

def outputWireJson (o : OutputWire) : Json :=
  .obj [("public_keys", .arr (o.public_keys.map .str)),
        ("amount", .str (toString o.amount)),
        ("condition", .obj [("details", detailsJson o.details), ("uri", .str o.uri)])]

def optJson : Option Json → Json
  | none => .null
  | some j => j

def optStrJson : Option String → Json
  | none => .null
  | some s => .str s

def txWireToJson (w : TxWire) : Json :=
  .obj [("inputs", .arr (w.inputs.map inputWireJson)),
        ("outputs", .arr (w.outputs.map outputWireJson)),
        ("operation", .str w.operation),
        ("metadata", optJson w.metadata),
        ("asset", w.asset),
        ("version", .str w.version),
        ("id", optStrJson w.id)]

/-- Canonical serialization of a transaction dict (Transaction._to_str). -/
def serializeTx (w : TxWire) : String := serialize (txWireToJson w)

/-- Transaction._remove_signatures: set every input fulfillment to null. -/
def remove_signatures (w : TxWire) : TxWire :=
  { w with inputs := w.inputs.map (fun i => { i with fulfillment := none }) }

/-- The stronger stripping operation that the spec sentence for the id
scheme describes: id null AND every input fulfillment null. -/
def strip_id_and_fulfillments (w : TxWire) : TxWire :=
  remove_signatures { w with id := none }

structure Transaction where
  operation : String
  asset : Json
  inputs : List Input
  outputs : List Output
  metadata : Option Json
  version : String
  hash_id : Option String
  tx_dict : Option TxWire

/-- Modelled from the spec: Input.to_dict.  A serializable (signed)
fulfillment is emitted as its URI string; otherwise the structured details
fallback is emitted.  (A None fulfillment is rendered as null here; the
Python fallback would raise TypeError on None, a case no transaction built
by this model produces.) -/
def inputToDict (i : Input) : InputWire :=
  { owners_before := i.owners_before
    fulfills := i.fulfills
    fulfillment :=
      match i.fulfillment with
      | none => none
      | some f =>
        match serializeUri f with
        | .ok u => some u
        | .error _ => some (.detailsW (stripSigs f)) }

/-- Modelled from the spec: Output.to_dict (amount as decimal string,
condition with details and derived uri). -/
def outputToDict (o : Output) : OutputWire :=
  { public_keys := o.public_keys
    amount := o.amount
    details := stripSigs o.fulfillment
    uri := conditionUri o.fulfillment }

/-- Transaction.to_dict.  The memoize_to_dict cache (memoize.py, not under
src/) is omitted: the spec treats dict conversion as a pure function of the
transaction. -/
def to_dict (t : Transaction) : TxWire :=
  { id := t.hash_id
    version := t.version
    operation := t.operation
    asset := t.asset
    metadata := t.metadata
    inputs := t.inputs.map inputToDict
    outputs := t.outputs.map outputToDict }

/-- Transaction.serialized composed with Transaction._hash: the id is the
hash of the canonical serialization of the current dict form (whose id
field is whatever hash_id currently holds). -/
def tx_hash_string (t : Transaction) : String := hash_data (serializeTx (to_dict t))

/-- Transaction.validate_id: read the proposed id (InvalidHash when absent
or null), null the id field, recompute the canonical hash and compare. -/
def validate_id (w : TxWire) : Except Err Unit :=
  match w.id with
  | none => .error .invalidHash
  | some proposed =>
    if proposed = hash_data (serializeTx { w with id := none }) then .ok ()
    else .error .invalidHash

/- ---------------------------------------------------------------------
Constructor, registry and dict conversion (transaction.py).
--------------------------------------------------------------------- -/

/-- Transaction.__init__: operation must be CREATE or TRANSFER (ValueError
otherwise); CREATE asset is None or a dict with a data key, TRANSFER asset
a dict with an id key (TypeError otherwise); metadata is None or a dict.
isinstance checks on the input and output lists are discharged by typing. -/
def txInit (operation : String) (asset : Json) (inputs : List Input)
    (outputs : List Output) (metadata : Option Json) (version : Option String)
    (hash_id : Option String) (tx_dict : Option TxWire) : Except Err Transaction :=
  if operation ≠ "CREATE" ∧ operation ≠ "TRANSFER" then .error .valueError
  else if operation = "CREATE" ∧ jsonBEq asset Json.null = false ∧ ¬(asset.isObj ∧ asset.hasKey "data") then
    .error .typeError
  else if operation = "TRANSFER" ∧ ¬(asset.isObj ∧ asset.hasKey "id") then
    .error .typeError
  else
    match metadata with
    | some m => if ¬ m.isObj then .error .typeError else
        .ok { operation, asset, inputs, outputs, metadata,
              version := version.getD "2.0", hash_id, tx_dict }
    | none =>
        .ok { operation, asset, inputs, outputs, metadata,
              version := version.getD "2.0", hash_id, tx_dict }

/-- Registered transaction classes.  models.Transaction (registered for
CREATE and TRANSFER) and the election classes are registered in
planetmint/__init__.py; the class bodies themselves are not under src/. -/
inductive TxClass where
  | models
  | validatorElection
  | chainMigrationElection
  | vote
  deriving DecidableEq

/-- Modelled from the spec: Transaction.type_registry as populated at
startup by planetmint/__init__.py (section 4.3: CREATE, TRANSFER,
VALIDATOR_ELECTION, CHAIN_MIGRATION_ELECTION, VOTE). -/
def type_registry : List (String × TxClass) :=
  [("CREATE", .models), ("TRANSFER", .models),
   ("VALIDATOR_ELECTION", .validatorElection),
   ("CHAIN_MIGRATION_ELECTION", .chainMigrationElection),
   ("VOTE", .vote)]

/-- Transaction.resolve_class: registry lookup with the class registered
for CREATE as the default for every unknown operation string. -/
def resolve_class (operation : String) : Option TxClass :=
  match type_registry.lookup operation with
  | some c => some c
  | none => type_registry.lookup "CREATE"

/-- Modelled from the spec: Input.from_dict (input.py not under src/).  A
URI string parses back to the fulfillment tree; a structured details dict
is rebuilt unsigned; a malformed URI string raises InvalidSignature (the
ASN.1 decode failure branch); a null fulfillment is kept as None. -/
def inputFromDict (w : InputWire) : Except Err Input :=
  match w.fulfillment with
  | none => .ok { fulfillment := none, owners_before := w.owners_before, fulfills := w.fulfills }
  | some (.uri f) => .ok { fulfillment := some f, owners_before := w.owners_before, fulfills := w.fulfills }
  | some (.detailsW f) => .ok { fulfillment := some (stripSigs f), owners_before := w.owners_before, fulfills := w.fulfills }
  | some (.malformed _) => .error .invalidSignature

/-- Modelled from the spec: Output.from_dict (output.py not under src/):
rebuild the unsigned fulfillment from condition.details and check the
amount is a positive integer (AmountError otherwise). -/
def outputFromDict (w : OutputWire) : Except Err Output :=
  if w.amount < 1 then .error .amountError
  else .ok { fulfillment := w.details, public_keys := w.public_keys, amount := w.amount }

def mapME (f : α → Except Err β) : List α → Except Err (List β)
  | [] => .ok []
  | x :: xs =>
    match f x with
    | .error e => .error e
    | .ok y =>
      match mapME f xs with
      | .error e => .error e
      | .ok ys => .ok (y :: ys)

/-- Transaction.from_dict with skip_schema_validation left at its default
(True): parse inputs then outputs, then construct via the resolved class.
For CREATE and TRANSFER the resolved class is models.Transaction whose
constructor is the base Transaction.__init__; the memoize_from_dict cache
(memoize.py, not under src/) is omitted as in to_dict. -/
def from_dict (w : TxWire) : Except Err Transaction :=
  match mapME inputFromDict w.inputs with
  | .error e => .error e
  | .ok inputs =>
    match mapME outputFromDict w.outputs with
    | .error e => .error e
    | .ok outputs =>
      txInit w.operation w.asset inputs outputs w.metadata (some w.version) w.id (some w)

/- ---------------------------------------------------------------------
Signing pipeline (Transaction.sign and helpers).
--------------------------------------------------------------------- -/

/-- key_pairs built by Transaction.sign: public key derived from each
private key, later duplicates overriding earlier ones (Python dict
comprehension), hence lookup over the reversed association list. -/
def keyPairsOf (private_keys : List String) : List (String × String) :=
  (private_keys.map (fun sk => (gen_public_key sk, sk))).reverse

def lookupKey (kp : List (String × String)) (pk : String) : Option String :=
  match kp.find? (fun p => p.1 == pk) with
  | some p => some p.2
  | none => none

/-- Suffix appended to the signing message for an input that fulfills a
previous output: txid concatenated with the output index (section 4.4). -/
def fulfillsSuffix : Option TransactionLink → String
  | none => ""
  | some l => l.txid ++ toString l.output

/-- Base signing message of Transaction.sign: canonical serialization of
the current dict form with all fulfillments nulled.  Note the id field is
left as-is (it is NOT set to null here, unlike in _inputs_valid). -/
def baseMessage (t : Transaction) : String :=
  serializeTx (remove_signatures (to_dict t))

/-- Transaction._sign_simple_signature_fulfillment: deep-copy the input,
take owners_before[0] (IndexError when empty), extend the digest with the
fulfills suffix, sign with the private key matched to that owner
(KeypairMismatch when absent). -/
def sign_simple (inp : Input) (f : Ffill) (message : String)
    (kp : List (String × String)) : Except Err Input :=
  match inp.owners_before with
  | [] => .error .indexError
  | pk :: _ =>
    let digest := hash_data (message ++ fulfillsSuffix inp.fulfills)
    match lookupKey kp pk with
    | none => .error .keypairMismatch
    | some sk =>
      .ok { inp with fulfillment := some (signMatching f pk sk digest) }

def dedupFirst : List String → List String
  | [] => []
  | x :: xs => x :: (dedupFirst xs).filter (fun y => y ≠ x)

def signThresholdGo (f : Ffill) (digest : String) (kp : List (String × String)) :
    List String → Except Err Ffill
  | [] => .ok f
  | ow :: rest =>
    if ¬ hasVk f ow then .error .keypairMismatch
    else
      match lookupKey kp ow with
      | none => .error .keypairMismatch
      | some sk =>
        signThresholdGo (signMatching f ow sk digest) digest kp rest

/-- Transaction._sign_threshold_signature_fulfillment: for each distinct
owner, find the Ed25519 leaves with that verifying key (KeypairMismatch
when none), look up the private key (KeypairMismatch when absent) and sign
each matching leaf.  Python iterates a set; the iteration order only
selects which failing owner raises first, so first-occurrence order is
used here. -/
def sign_threshold (inp : Input) (f : Ffill) (message : String)
    (kp : List (String × String)) : Except Err Input :=
  let digest := hash_data (message ++ fulfillsSuffix inp.fulfills)
  match signThresholdGo f digest kp (dedupFirst inp.owners_before) with
  | .error e => .error e
  | .ok f2 => .ok { inp with fulfillment := some f2 }

/-- Transaction._sign_input: dispatch on the fulfillment kind; anything
else (including a missing fulfillment object) raises ValueError. -/
def sign_input (inp : Input) (message : String) (kp : List (String × String)) :
    Except Err Input :=
  match inp.fulfillment with
  | some (.ed25519 pk sig) => sign_simple inp (.ed25519 pk sig) message kp
  | some (.threshold t subs) => sign_threshold inp (.threshold t subs) message kp
  | none => .error .valueError

/-- The in-place loop of Transaction.sign: self.inputs[i] is replaced one
at a time, so a failure at position i leaves positions before i signed and
positions from i on untouched. -/
def signInputsGo (message : String) (kp : List (String × String)) :
    List Input → List Input × Option Err
  | [] => ([], none)
  | inp :: rest =>
    match sign_input inp message kp with
    | .error e => (inp :: rest, some e)
    | .ok inp2 =>
      let r := signInputsGo message kp rest
      (inp2 :: r.1, r.2)

/-- Transaction.sign: build key_pairs, serialize the signature-stripped
dict as the base message, sign each input in place, then recompute the id
(_hash) only when every input signed.  The returned pair is the transaction
state after the call together with the exception, if any, that escaped. -/
def sign (t : Transaction) (private_keys : List String) : Transaction × Option Err :=
  let kp := keyPairsOf private_keys
  let message := baseMessage t
  match signInputsGo message kp t.inputs with
  | (inputs2, some e) => ({ t with inputs := inputs2 }, some e)
  | (inputs2, none) =>
    let t2 : Transaction := { t with inputs := inputs2 }
    ({ t2 with hash_id := some (tx_hash_string t2) }, none)

/- ---------------------------------------------------------------------
Fulfillment validation (inputs_valid / _inputs_valid / _input_valid).
--------------------------------------------------------------------- -/

def caughtInInputValid : Err → Bool
  | .typeError => true
  | .valueError => true
  | .parsingError => true
  | .asn1DecodeError => true
  | .asn1EncodeError => true
  | _ => false

/-- Transaction._input_valid.  Serialize-then-reparse of the fulfillment is
wrapped in a try/except returning False on TypeError, ValueError,
ParsingError and ASN.1 errors; a None fulfillment raises AttributeError,
which is not in the caught tuple and escapes.  For CREATE the output
condition is not checked; otherwise the condition URI must match.  The
lru_cache decoration (pure memoization) is omitted. -/
def serializeThenParse (f : Ffill) : Except Err Ffill :=
  match serializeUri f with
  | .error e => .error e
  | .ok u => fromUri u

def input_valid (inp : Input) (operation : String) (message : String)
    (output_condition_uri : String) : Except Err Bool :=
  match inp.fulfillment with
  | none => .error .attributeError
  | some ccffill =>
    match serializeThenParse ccffill with
    | .error e => if caughtInInputValid e then .ok false else .error e
    | .ok parsed_ffill =>
      let output_valid :=
        if operation = "CREATE" then true
        else output_condition_uri == conditionUri ccffill
      let digest := hash_data (message ++ fulfillsSuffix inp.fulfills)
      .ok (output_valid && ffillValidate parsed_ffill digest)

/-- Sequential all() over a generator of fallible checks: stops at the
first False, propagates the first exception. -/
def allE : List α → (α → Except Err Bool) → Except Err Bool
  | [], _ => .ok true
  | x :: xs, f =>
    match f x with
    | .error e => .error e
    | .ok false => .ok false
    | .ok true => allE xs f

/-- Transaction._inputs_valid: the condition URI count must match the
input count (ValueError otherwise); the message is the canonical
serialization of the stored dict (tx_dict when present, to_dict otherwise)
with signatures removed AND the id set to null. -/
def inputs_valid_inner (t : Transaction) (output_condition_uris : List String) :
    Except Err Bool :=
  if t.inputs.length ≠ output_condition_uris.length then .error .valueError
  else
    let d0 := match t.tx_dict with
              | some w => w
              | none => to_dict t
    let d1 := { remove_signatures d0 with id := none }
    let message := serializeTx d1
    allE (t.inputs.zip output_condition_uris)
      (fun p => input_valid p.1 t.operation message p.2)

/-- Transaction.inputs_valid: CREATE validates against dummy values,
TRANSFER against the condition URIs of the given outputs, anything else
raises TypeError. -/
def inputs_valid (t : Transaction) (outputs : List Output) : Except Err Bool :=
  if t.operation = "CREATE" then
    inputs_valid_inner t (t.inputs.map (fun _ => "dummyvalue"))
  else if t.operation = "TRANSFER" then
    inputs_valid_inner t (outputs.map (fun o => conditionUri o.fulfillment))
  else .error .typeError

/- ---------------------------------------------------------------------
Transfer validation (Transaction.validate_transfer_inputs).
--------------------------------------------------------------------- -/

/-- Modelled from the spec: the store interface consumed by
validate_transfer_inputs (lib.py is not under src/): get_transaction
returns a stored transaction by id, get_spent the transaction consuming a
given output link, also scanning the in-flight batch (sections 4.5, 4.6). -/
structure Planet where
  get_transaction : String → Option Transaction
  get_spent : String → Nat → List Transaction → Option Transaction

/-- Per-input resolution loop of validate_transfer_inputs: resolve the
fulfilled transaction via the store then the current batch (the loop keeps
the last match), InputDoesNotExist when absent, DoubleSpend when the spent
index hits, then collect the referenced output (IndexError when the index
is out of range, as in Python) and the input transaction. -/
def resolveInputs (planet : Planet) (current_transactions : List Transaction) :
    List Input → Except Err (List Output × List Transaction)
  | [] => .ok ([], [])
  | inp :: rest =>
    match inp.fulfills with
    | none => .error .attributeError
    | some link =>
      let input_tx? :=
        match planet.get_transaction link.txid with
        | some t => some t
        | none => (current_transactions.filter (fun (c : Transaction) => c.hash_id == some link.txid)).getLast?
      match input_tx? with
      | none => .error .inputDoesNotExist
      | some input_tx =>
        match planet.get_spent link.txid link.output current_transactions with
        | some _ => .error .doubleSpend
        | none =>
          match input_tx.outputs[link.output]? with
          | none => .error .indexError
          | some output =>
            match resolveInputs planet current_transactions rest with
            | .error e => .error e
            | .ok (conds, txs) => .ok (output :: conds, input_tx :: txs)

/-- Link URI of an input as used by the pairwise-distinctness check
(fulfills.to_uri()); by the time the check runs every fulfills is non-null,
the none branch being unreachable. -/
def linkUriOf (i : Input) : String :=
  match i.fulfills with
  | some l => l.to_uri
  | none => ""

/-- Value contributed by one input transaction to the asset-id set:
its own id for CREATE, its asset id otherwise (Transaction.get_asset_id). -/
def idVal (t : Transaction) : Except Err Json :=
  if t.operation = "CREATE" then .ok (optStrJson t.hash_id)
  else jsonLookup t.asset "id"

/-- Transaction.get_asset_id: a singleton set of asset ids is required;
popping an empty set raises KeyError, more than one distinct value raises
AssetIdMismatch. -/
def get_asset_id (txs : List Transaction) : Except Err Json :=
  match mapME idVal txs with
  | .error e => .error e
  | .ok [] => .error .keyError
  | .ok (v :: vs) =>
    if vs.all (fun u => jsonBEq v u) then .ok v else .error .assetIdMismatch

/-- Asset-id stage of validate_transfer_inputs: the common input asset id
must equal this transaction's asset id. -/
def assetStage (t : Transaction) (input_txs : List Transaction) : Except Err Unit :=
  match get_asset_id input_txs with
  | .error e => .error e
  | .ok asset_id =>
    match jsonLookup t.asset "id" with
    | .error e => .error e
    | .ok self_id =>
      if jsonBEq asset_id self_id then .ok () else .error .assetIdMismatch

/-- Transaction.validate_transfer_inputs: per-input resolution, pairwise
distinctness of the fulfilled links (DoubleSpend), asset-id coherence,
amount conservation (AmountError), then fulfillment verification
(InvalidSignature). -/
def validate_transfer_inputs (t : Transaction) (planet : Planet)
    (current_transactions : List Transaction) : Except Err Bool :=
  match resolveInputs planet current_transactions t.inputs with
  | .error e => .error e
  | .ok (input_conditions, input_txs) =>
    let links := t.inputs.map linkUriOf
    if links.length ≠ links.dedup.length then .error .doubleSpend
    else
      match assetStage t input_txs with
      | .error e => .error e
      | .ok _ =>
        let input_amount := (input_conditions.map (fun o => o.amount)).sum
        let output_amount := (t.outputs.map (fun o => o.amount)).sum
        if output_amount ≠ input_amount then .error .amountError
        else
          match inputs_valid t input_conditions with
          | .error e => .error e
          | .ok true => .ok true
          | .ok false => .error .invalidSignature

/- ---------------------------------------------------------------------
Store queries (backend/tarantool/query.py): latest_block and
get_validator_set.
--------------------------------------------------------------------- -/

/-- Row of the blocks space, as inserted by store_block:
(app_hash, height, block_unique_id). -/
structure BlockRow where
  app_hash : String
  height : Int
  uid : String

/-- Row of the blocks_tx space: (transaction_id, block_unique_id). -/
structure BlockTxRow where
  txid : String
  block_uid : String

/-- Stable ascending insertion sort by height: Python sorted() with
key=itemgetter(1). -/
def insByHeight {α : Type} (height : α → Int) (b : α) : List α → List α
  | [] => [b]
  | x :: xs => if height b < height x then b :: x :: xs else x :: insByHeight height b xs

def sortByHeight {α : Type} (height : α → Int) (l : List α) : List α :=
  l.foldr (insByHeight height) []

/-- query.latest_block: select all block rows, sort ASCENDING by tuple
index 1 (the height) and take the FIRST element, then join blocks_tx rows
on the block uid.  The returned dict carries _block[1] (the height) under
BOTH the app_hash and the height keys, exactly as the source does.  An
empty space raises IndexError in Python; none is returned here. -/
def latest_block (blocks : List BlockRow) (blocks_tx : List BlockTxRow) : Option Json :=
  match sortByHeight BlockRow.height blocks with
  | [] => none
  | b :: _ =>
    let txids := (blocks_tx.filter (fun r => r.block_uid == b.uid)).map (fun r => r.txid)
    some (.obj [("app_hash", .num b.height), ("height", .num b.height),
                ("transactions", .arr (txids.map .str))])

/-- Row of the validators space, as inserted by store_validator_set:
(validator_unique_id, height, validators payload). -/
structure ValidatorRow where
  uid : String
  height : Int
  validators : Json

/-- query.get_validator_set: select all validator rows, optionally filter
to height at most the requested height, sort ASCENDING by height and take
the FIRST element (the oldest record), exactly as the source does. -/
def get_validator_set (rows : List ValidatorRow) (height : Option Int) : Option ValidatorRow :=
  match height with
  | some h => ((sortByHeight ValidatorRow.height (rows.filter (fun v => v.height ≤ h)))).head?
  | none => (sortByHeight ValidatorRow.height rows).head?

/- ---------------------------------------------------------------------
Concrete fixtures used by witnesses and counterexamples.
--------------------------------------------------------------------- -/

/-- Signature field of the first input, used to observe signing effects. -/
def firstSig (t : Transaction) : Option String :=
  match t.inputs.head? with
  | some i =>
    match i.fulfillment with
    | some (.ed25519 _ s) => s
    | _ => none
  | none => none

def c1input : InputWire :=
  { owners_before := ["pub:a"], fulfills := none,
    fulfillment := some (.uri (.ed25519 "pub:a" (some "s1"))) }

def c1output : OutputWire :=
  { public_keys := ["pub:a"], amount := 5,
    details := .ed25519 "pub:a" none, uri := conditionUri (.ed25519 "pub:a" none) }

def c1base : TxWire :=
  { id := none, version := "2.0", operation := "CREATE", asset := Json.null,
    metadata := none, inputs := [c1input], outputs := [c1output] }

/-- A transaction dict carrying exactly the id the code accepts. -/
def c1tx : TxWire := { c1base with id := some (hash_data (serializeTx c1base)) }

def c2in0 : Input :=
  { fulfillment := some (.ed25519 "pub:a" none), owners_before := ["pub:a"], fulfills := none }

def c2in1 : Input :=
  { fulfillment := some (.ed25519 "pub:b" none), owners_before := ["pub:b"], fulfills := none }

def c2out : Output :=
  { fulfillment := .ed25519 "pub:a" none, public_keys := ["pub:a"], amount := 1 }

/-- Two-input CREATE transaction; only the first owner's key will be
supplied to sign. -/
def c2tx : Transaction :=
  { operation := "CREATE", asset := Json.null, inputs := [c2in0, c2in1],
    outputs := [c2out], metadata := none, version := "2.0",
    hash_id := none, tx_dict := none }

/-- Single-input transaction whose only owner has no supplied key. -/
def c2wtx : Transaction :=
  { operation := "CREATE", asset := Json.null, inputs := [c2in1],
    outputs := [c2out], metadata := none, version := "2.0",
    hash_id := none, tx_dict := none }

/-- Fresh unsigned single-input CREATE transaction. -/
def c3t0 : Transaction :=
  { operation := "CREATE", asset := Json.null, inputs := [c2in0],
    outputs := [c2out], metadata := none, version := "2.0",
    hash_id := none, tx_dict := none }

def c3t1 : Transaction := (sign c3t0 ["a"]).1

def c3t2 : Transaction := (sign c3t1 ["a"]).1

def c4blocks : List BlockRow := [⟨"A", 1, "u1"⟩, ⟨"B", 2, "u2"⟩]

def c4btx : List BlockTxRow := [⟨"t1", "u1"⟩, ⟨"t2", "u2"⟩]

def c5rows : List ValidatorRow := [⟨"v1", 1, .str "SET1"⟩, ⟨"v2", 2, .str "SET2"⟩]

def w6out : Output :=
  { fulfillment := .ed25519 "pub:a" none, public_keys := ["pub:a"], amount := 5 }

/-- Stored CREATE transaction with one 5-token output. -/
def w6tx0 : Transaction :=
  { operation := "CREATE", asset := Json.null, inputs := [],
    outputs := [w6out], metadata := none, version := "2.0",
    hash_id := some "t0", tx_dict := none }

def w6planet : Planet :=
  { get_transaction := fun i => if i == "t0" then some w6tx0 else none,
    get_spent := fun _ _ _ => none }

/-- TRANSFER spending (t0, 0) but emitting 6 tokens from a 5-token input. -/
def w6spend : Transaction :=
  { operation := "TRANSFER", asset := .obj [("id", .str "t0")],
    inputs := [{ fulfillment := some (.ed25519 "pub:a" none),
                 owners_before := ["pub:a"], fulfills := some ⟨"t0", 0⟩ }],
    outputs := [{ fulfillment := .ed25519 "pub:b" none,
                  public_keys := ["pub:b"], amount := 6 }],
    metadata := none, version := "2.0", hash_id := none, tx_dict := none }

def w7outA : Output :=
  { fulfillment := .ed25519 "pub:a" none, public_keys := ["pub:a"], amount := 2 }

def w7outB : Output :=
  { fulfillment := .ed25519 "pub:a" none, public_keys := ["pub:a"], amount := 3 }

/-- Stored CREATE transaction with two distinct outputs. -/
def w7tx0 : Transaction :=
  { operation := "CREATE", asset := Json.null, inputs := [],
    outputs := [w7outA, w7outB], metadata := none, version := "2.0",
    hash_id := some "t0", tx_dict := none }

def w7planet : Planet :=
  { get_transaction := fun i => if i == "t0" then some w7tx0 else none,
    get_spent := fun _ _ _ => none }

/-- TRANSFER fulfilling two DISTINCT outputs of the same prior transaction. -/
def w7spend : Transaction :=
  { operation := "TRANSFER", asset := .obj [("id", .str "t0")],
    inputs := [{ fulfillment := some (.ed25519 "pub:a" none),
                 owners_before := ["pub:a"], fulfills := some ⟨"t0", 0⟩ },
               { fulfillment := some (.ed25519 "pub:a" none),
                 owners_before := ["pub:a"], fulfills := some ⟨"t0", 1⟩ }],
    outputs := [{ fulfillment := .ed25519 "pub:b" none,
                  public_keys := ["pub:b"], amount := 5 }],
    metadata := none, version := "2.0", hash_id := none, tx_dict := none }

/-- Well-formed wire dict for the round-trip witness. -/
def c8w : TxWire :=
  { id := some "someid", version := "2.0", operation := "CREATE", asset := Json.null,
    metadata := none,
    inputs := [{ owners_before := ["pub:a"], fulfills := some ⟨"t9", 3⟩,
                 fulfillment := some (.uri (.ed25519 "pub:a" (some "s1"))) }],
    outputs := [{ public_keys := ["pub:a"], amount := 7,
                  details := .ed25519 "pub:a" none,
                  uri := conditionUri (.ed25519 "pub:a" none) }] }

/-- Input whose fulfillment (unsigned Ed25519) cannot be serialized to a
fulfillment URI. -/
def c10inp : Input :=
  { fulfillment := some (.ed25519 "pub:a" none), owners_before := ["pub:a"], fulfills := none }

def c10tx : Transaction :=
  { operation := "CREATE", asset := Json.null, inputs := [c10inp],
    outputs := [c2out], metadata := none, version := "2.0",
    hash_id := none, tx_dict := none }

/-- Well-formedness of a transaction wire dict: the shape from section 6 of
the spec with CREATE / TRANSFER operation, signed URI fulfillments, and
outputs whose uri matches their details. -/
def WfTxWire (w : TxWire) : Prop :=
  (w.operation = "CREATE" ∨ w.operation = "TRANSFER") ∧
  (w.operation = "CREATE" → w.asset = Json.null ∨ (w.asset.isObj ∧ w.asset.hasKey "data")) ∧
  (w.operation = "TRANSFER" → w.asset.isObj ∧ w.asset.hasKey "id") ∧
  (∀ m, w.metadata = some m → m.isObj) ∧
  (∀ i ∈ w.inputs, ∃ f, i.fulfillment = some (.uri f) ∧ f.isSigned) ∧
  (∀ o ∈ w.outputs, stripSigs o.details = o.details ∧ o.uri = conditionUri o.details ∧ 1 ≤ o.amount)

/- ---------------------------------------------------------------------
Theorems.  Shared helper lemmas first, then one theorem per claim (with
witnesses / counterexamples).
--------------------------------------------------------------------- -/

theorem sha3_sanity_empty :
    hash_data "" = "a7ffc6f8bf1ed76651c14756a061d662f580ff4de43b49fa82d80a4b80f8434a" := by
  decide

theorem sha3_sanity_abc :
    hash_data "abc" = "3a985da74fe225b2045c172d6bd390bd855f086e3e9d525b46bfe24511431532" := by
  decide

theorem mapME_error_mem {α β : Type} {f : α → Except Err β} {e : Err} :
    ∀ {l : List α}, mapME f l = .error e → ∃ x ∈ l, f x = .error e := by
  intro l
  induction l with
  | nil => intro h; simp [mapME] at h
  | cons x xs ih =>
    intro h
    rw [mapME] at h
    cases hfx : f x with
    | error e2 =>
      rw [hfx] at h
      injection h with h
      subst h
      exact ⟨x, List.mem_cons_self x xs, hfx⟩
    | ok y =>
      rw [hfx] at h
      cases hrec : mapME f xs with
      | error e2 =>
        rw [hrec] at h
        injection h with h
        subst h
        obtain ⟨z, hz, hfz⟩ := ih hrec
        exact ⟨z, List.mem_cons_of_mem x hz, hfz⟩
      | ok ys => rw [hrec] at h; cases h

theorem allE_error_mem {α : Type} {f : α → Except Err Bool} {e : Err} :
    ∀ {l : List α}, allE l f = .error e → ∃ x ∈ l, f x = .error e := by
  intro l
  induction l with
  | nil => intro h; simp [allE] at h
  | cons x xs ih =>
    intro h
    rw [allE] at h
    cases hfx : f x with
    | error e2 =>
      rw [hfx] at h
      injection h with h
      subst h
      exact ⟨x, List.mem_cons_self x xs, hfx⟩
    | ok b =>
      rw [hfx] at h
      cases b with
      | false => cases h
      | true =>
        obtain ⟨z, hz, hfz⟩ := ih h
        exact ⟨z, List.mem_cons_of_mem x hz, hfz⟩

theorem allE_ok_false {α : Type} {f : α → Except Err Bool} :
    ∀ {l : List α}, (∀ x ∈ l, ∃ b, f x = .ok b) → (∃ x ∈ l, f x = .ok false) →
    allE l f = .ok false := by
  intro l
  induction l with
  | nil => intro _ hex; obtain ⟨x, hx, _⟩ := hex; cases hx
  | cons y ys ih =>
    intro hall hex
    rw [allE]
    obtain ⟨b, hb⟩ := hall y (List.mem_cons_self y ys)
    rw [hb]
    cases b with
    | false => rfl
    | true =>
      obtain ⟨x, hx, hfx⟩ := hex
      rcases List.mem_cons.mp hx with heq | hmem
      · subst heq; rw [hfx] at hb; cases hb
      · exact ih (fun z hz => hall z (List.mem_cons_of_mem y hz)) ⟨x, hmem, hfx⟩

theorem jsonLookup_error {j : Json} {k : String} {e : Err}
    (h : jsonLookup j k = .error e) : e = .keyError ∨ e = .typeError := by
  unfold jsonLookup at h
  split at h
  · split at h
    · cases h
    · injection h with h; exact Or.inl h.symm
  · injection h with h; exact Or.inr h.symm

theorem idVal_error {t : Transaction} {e : Err} (h : idVal t = .error e) :
    e = .keyError ∨ e = .typeError := by
  unfold idVal at h
  by_cases hop : t.operation = "CREATE"
  · rw [if_pos hop] at h; cases h
  · rw [if_neg hop] at h; exact jsonLookup_error h

theorem get_asset_id_error {txs : List Transaction} {e : Err}
    (h : get_asset_id txs = .error e) :
    e = .keyError ∨ e = .typeError ∨ e = .assetIdMismatch := by
  unfold get_asset_id at h
  split at h
  · next e2 hm =>
    injection h with h
    subst h
    obtain ⟨x, _, hx⟩ := mapME_error_mem hm
    rcases idVal_error hx with h1 | h1
    · exact Or.inl h1
    · exact Or.inr (Or.inl h1)
  · injection h with h; exact Or.inl h.symm
  · split at h
    · cases h
    · injection h with h; exact Or.inr (Or.inr h.symm)

theorem assetStage_error {t : Transaction} {txs : List Transaction} {e : Err}
    (h : assetStage t txs = .error e) :
    e = .keyError ∨ e = .typeError ∨ e = .assetIdMismatch := by
  unfold assetStage at h
  split at h
  · next e2 hg =>
    injection h with h; subst h; exact get_asset_id_error hg
  · split at h
    · next e2 hl =>
      injection h with h
      subst h
      rcases jsonLookup_error hl with h1 | h1
      · exact Or.inl h1
      · exact Or.inr (Or.inl h1)
    · split at h
      · cases h
      · injection h with h; exact Or.inr (Or.inr h.symm)

theorem serializeThenParse_error {f : Ffill} {e : Err}
    (h : serializeThenParse f = .error e) :
    e = .asn1EncodeError := by
  unfold serializeThenParse serializeUri at h
  by_cases hs : f.isSigned = true
  · rw [if_pos hs] at h; cases h
  · rw [if_neg hs] at h; injection h with h; exact h.symm

theorem input_valid_error {inp : Input} {op m u : String} {e : Err}
    (h : input_valid inp op m u = .error e) : e = .attributeError := by
  unfold input_valid at h
  split at h
  · injection h with h; exact h.symm
  · split at h
    · next e2 hc =>
      have he2 := serializeThenParse_error hc
      subst he2
      simp [caughtInInputValid] at h
    · cases h

theorem inputs_valid_inner_error {t : Transaction} {uris : List String} {e : Err}
    (h : inputs_valid_inner t uris = .error e) :
    e = .valueError ∨ e = .attributeError := by
  unfold inputs_valid_inner at h
  by_cases hlen : t.inputs.length ≠ uris.length
  · rw [if_pos hlen] at h; injection h with h; exact Or.inl h.symm
  · rw [if_neg hlen] at h
    obtain ⟨p, _, hp⟩ := allE_error_mem h
    exact Or.inr (input_valid_error hp)

theorem inputs_valid_error {t : Transaction} {outs : List Output} {e : Err}
    (h : inputs_valid t outs = .error e) :
    e = .typeError ∨ e = .valueError ∨ e = .attributeError := by
  unfold inputs_valid at h
  by_cases h1 : t.operation = "CREATE"
  · rw [if_pos h1] at h
    rcases inputs_valid_inner_error h with h2 | h2
    · exact Or.inr (Or.inl h2)
    · exact Or.inr (Or.inr h2)
  · rw [if_neg h1] at h
    by_cases h2 : t.operation = "TRANSFER"
    · rw [if_pos h2] at h
      rcases inputs_valid_inner_error h with h3 | h3
      · exact Or.inr (Or.inl h3)
      · exact Or.inr (Or.inr h3)
    · rw [if_neg h2] at h; injection h with h; exact Or.inl h.symm

theorem dedup_len_iff (l : List String) : l.length = l.dedup.length ↔ l.Nodup := by
  constructor
  · intro h
    have hsub := l.dedup_sublist
    have heq := hsub.eq_of_length h.symm
    rw [← heq]
    exact l.nodup_dedup
  · intro h
    rw [List.dedup_eq_self.mpr h]

theorem validate_id_iff (w : TxWire) :
    validate_id w = .ok () ↔
    w.id = some (hash_data (serializeTx { w with id := none })) := by
  constructor
  · intro h
    unfold validate_id at h
    split at h
    · cases h
    · next proposed hid =>
      split at h
      · next hp => rw [hid, hp]
      · cases h
  · intro h
    unfold validate_id
    rw [h]
    exact if_pos rfl

/-- Claim C4 (code_bug evidence): on a store holding blocks at heights 1
and 2, latest_block returns the block of MINIMAL height 1 (the source
sorts ascending and takes the first element) and puts the height, not the
stored app_hash "A", under the app_hash key — against the claim that the
maximal-height block and its stored app_hash are returned. -/
theorem C4_latest_block_bug :
    latest_block c4blocks c4btx =
      some (.obj [("app_hash", .num 1), ("height", .num 1),
                  ("transactions", .arr [.str "t1"])]) ∧
    (c4blocks.map BlockRow.height).max? = some 2 ∧
    (c4blocks.filter (fun b => b.height == 1)).map BlockRow.app_hash = ["A"] := by
  exact ⟨rfl, rfl, rfl⟩

/-- Claim C5 (code_bug evidence): on validator-set records at heights 1
and 2, get_validator_set returns the OLDEST record (height 1) both for a
requested height of 5 (most recent at or below 5 is height 2) and for a
null height (overall latest is height 2), because the source sorts
ascending and takes the first element. -/
theorem C5_get_validator_set_bug :
    get_validator_set c5rows (some 5) = some ⟨"v1", 1, .str "SET1"⟩ ∧
    get_validator_set c5rows none = some ⟨"v1", 1, .str "SET1"⟩ ∧
    ((c5rows.filter (fun v => v.height ≤ 5)).map ValidatorRow.height).max? = some 2 := by
  exact ⟨rfl, rfl, rfl⟩

/-- Claim C9: a base-Transaction construction with an operation outside
CREATE and TRANSFER raises ValueError, even though resolve_class maps
every operation string missing from the registry to the class registered
for CREATE. -/
theorem C9_unknown_operation :
    (∀ (op : String) (asset : Json) (inputs : List Input) (outputs : List Output)
       (metadata : Option Json) (version : Option String)
       (hid : Option String) (txd : Option TxWire),
       op ≠ "CREATE" → op ≠ "TRANSFER" →
       txInit op asset inputs outputs metadata version hid txd = .error .valueError) ∧
    (∀ op : String, type_registry.lookup op = none →
       resolve_class op = some TxClass.models) := by
  constructor
  · intro op asset inputs outputs metadata version hid txd h1 h2
    unfold txInit
    rw [if_pos ⟨h1, h2⟩]
  · intro op h
    unfold resolve_class
    rw [h]
    rfl

/-- Claim C9 witness: the concrete unknown operation string ELECTION. -/
theorem C9_unknown_operation_witness :
    txInit "ELECTION" Json.null [] [] none none none none = .error .valueError ∧
    resolve_class "ELECTION" = some TxClass.models := by
  refine ⟨C9_unknown_operation.1 "ELECTION" Json.null [] [] none none none none
            (by decide) (by decide),
          C9_unknown_operation.2 "ELECTION" (by rfl)⟩

/-- Claim C1 (counterexample): a transaction dict whose id is exactly the
hash the code accepts (validate_id succeeds) while the claimed formula —
hash of the serialization with id null AND every input fulfillment null —
yields a different digest, because validate_id nulls only the id and
leaves the fulfillments in the hashed serialization. -/
theorem C1_id_scheme_counterexample :
    validate_id c1tx = .ok () ∧
    c1tx.id ≠ some (hash_data (serializeTx (strip_id_and_fulfillments c1tx))) := by
  constructor
  · rfl
  · decide

/-- Claim C1 (amended): validate_id accepts a dict exactly when its id
field equals the lowercase-hex SHA3-256 of the canonical serialization
with ONLY the id set to null (fulfillments retained), raising InvalidHash
when the id is absent/null or differs; and the id computed by a successful
sign of a fresh transaction passes validate_id. -/
theorem C1_id_scheme_amended :
    (∀ w : TxWire,
       validate_id w = .ok () ↔
       w.id = some (hash_data (serializeTx { w with id := none }))) ∧
    (∀ (t : Transaction) (keys : List String) (res : Transaction),
       t.hash_id = none → sign t keys = (res, none) →
       validate_id (to_dict res) = .ok ()) := by
  constructor
  · exact validate_id_iff
  · intro t keys res h0 hs
    simp only [sign] at hs
    split at hs
    · exact absurd (congrArg Prod.snd hs) (by simp)
    · next inputs2 heq =>
      have hres : res = { { t with inputs := inputs2 } with
          hash_id := some (tx_hash_string { t with inputs := inputs2 }) } :=
        (congrArg Prod.fst hs).symm
      subst hres
      rw [validate_id_iff]
      have heq2 : ({ to_dict { { t with inputs := inputs2 } with
            hash_id := some (tx_hash_string { t with inputs := inputs2 }) } with id := none } : TxWire)
          = to_dict { t with inputs := inputs2 } := by
        simp [to_dict, h0]
      rw [heq2]
      rfl

theorem signInputsGo_length (message : String) (kp : List (String × String)) :
    ∀ l : List Input, (signInputsGo message kp l).1.length = l.length := by
  intro l
  induction l with
  | nil => rfl
  | cons inp rest ih =>
    rw [signInputsGo]
    cases hsi : sign_input inp message kp with
    | error e => rfl
    | ok inp2 => simpa using ih

/-- Claim C2 (amended): when sign fails, every field other than inputs
(operation, asset, metadata, version, outputs and the id) is left
untouched and the input count is preserved, and when the failure occurs at
the FIRST input the transaction is left exactly in its pre-signing state;
inputs before a later failure point, however, have already been replaced
by their signed copies (see the counterexample). -/
theorem C2_sign_failure_amended :
    (∀ (t : Transaction) (keys : List String) (res : Transaction) (e : Err),
       sign t keys = (res, some e) →
       res.operation = t.operation ∧ res.asset = t.asset ∧ res.metadata = t.metadata ∧
       res.version = t.version ∧ res.hash_id = t.hash_id ∧ res.outputs = t.outputs ∧
       res.inputs.length = t.inputs.length) ∧
    (∀ (t : Transaction) (keys : List String) (inp : Input) (rest : List Input) (e : Err),
       t.inputs = inp :: rest →
       sign_input inp (baseMessage t) (keyPairsOf keys) = .error e →
       sign t keys = (t, some e)) := by
  constructor
  · intro t keys res e hs
    simp only [sign] at hs
    split at hs
    · next inputs2 e2 heq =>
      have hres : res = { t with inputs := inputs2 } := (congrArg Prod.fst hs).symm
      subst hres
      refine ⟨rfl, rfl, rfl, rfl, rfl, rfl, ?_⟩
      show inputs2.length = t.inputs.length
      have h1 : (signInputsGo (baseMessage t) (keyPairsOf keys) t.inputs).1 = inputs2 := by
        rw [heq]
      rw [← h1, signInputsGo_length]
    · exact absurd (congrArg Prod.snd hs) (by simp)
  · intro t keys inp rest e hin hsi
    simp only [sign, hin, signInputsGo, hsi]
    rw [← hin]

/-- Claim C2 (counterexample): signing a two-input transaction with only
the first owner's key fails with KeypairMismatch on the second input, yet
the first input's fulfillment has already been replaced by a signed copy —
the transaction is NOT left in its pre-signing state. -/
theorem C2_sign_failure_counterexample :
    (sign c2tx ["a"]).2 = some Err.keypairMismatch ∧
    firstSig (sign c2tx ["a"]).1 ≠ firstSig c2tx := by
  exact ⟨rfl, by decide⟩

/-- Claim C2 witness: a failure at the first input leaves the transaction
exactly unchanged. -/
theorem C2_sign_failure_witness :
    sign c2wtx ["a"] = (c2wtx, some Err.keypairMismatch) :=
  C2_sign_failure_amended.2 c2wtx ["a"] c2in1 [] Err.keypairMismatch rfl (by rfl)

theorem sign_input_preserves {inp inp2 : Input} {message : String}
    {kp : List (String × String)} (h : sign_input inp message kp = .ok inp2) :
    inp2.owners_before = inp.owners_before ∧ inp2.fulfills = inp.fulfills := by
  unfold sign_input at h
  split at h
  · -- ed25519 branch: sign_simple
    unfold sign_simple at h
    split at h
    · cases h
    · split at h
      · cases h
      · injection h with h
        subst h
        exact ⟨rfl, rfl⟩
  · -- threshold branch: sign_threshold
    simp only [sign_threshold] at h
    split at h
    · cases h
    · injection h with h
      subst h
      exact ⟨rfl, rfl⟩
  · cases h

theorem signInputsGo_ok_preserves {message : String} {kp : List (String × String)} :
    ∀ {l l2 : List Input}, signInputsGo message kp l = (l2, none) →
    l2.map Input.owners_before = l.map Input.owners_before ∧
    l2.map Input.fulfills = l.map Input.fulfills := by
  intro l
  induction l with
  | nil =>
    intro l2 h
    rw [signInputsGo] at h
    have : l2 = [] := (congrArg Prod.fst h).symm
    subst this
    exact ⟨rfl, rfl⟩
  | cons inp rest ih =>
    intro l2 h
    rw [signInputsGo] at h
    cases hsi : sign_input inp message kp with
    | error e =>
      rw [hsi] at h
      exact absurd (congrArg Prod.snd h) (by simp)
    | ok inp2 =>
      rw [hsi] at h
      have h1 : inp2 :: (signInputsGo message kp rest).1 = l2 := congrArg Prod.fst h
      have h2 : (signInputsGo message kp rest).2 = none := congrArg Prod.snd h
      have hrec : signInputsGo message kp rest = ((signInputsGo message kp rest).1, none) := by
        rw [← h2]
      obtain ⟨ho, hf⟩ := ih hrec
      obtain ⟨po, pf⟩ := sign_input_preserves hsi
      subst h1
      constructor
      · simp [ho, po]
      · simp [hf, pf]

/-- Claim C3 (amended): signing is NOT idempotent — re-signing a signed
transaction signs a base message that contains the non-null id written by
the first signing (sign does not null the id field of the dict it
serializes), so the second signing produces different fulfillments and a
different id (see the counterexample).  What double signing does preserve
is all non-signature content: operation, asset, metadata, version,
outputs, and every input's owners_before and fulfills. -/
theorem C3_sign_idempotence_amended :
    ∀ (t : Transaction) (keys : List String) (res : Transaction),
      sign t keys = (res, none) →
      res.operation = t.operation ∧ res.asset = t.asset ∧ res.metadata = t.metadata ∧
      res.version = t.version ∧ res.outputs = t.outputs ∧
      res.inputs.map Input.owners_before = t.inputs.map Input.owners_before ∧
      res.inputs.map Input.fulfills = t.inputs.map Input.fulfills := by
  intro t keys res hs
  simp only [sign] at hs
  split at hs
  · exact absurd (congrArg Prod.snd hs) (by simp)
  · next inputs2 heq =>
    have hres : res = { { t with inputs := inputs2 } with
        hash_id := some (tx_hash_string { t with inputs := inputs2 }) } :=
      (congrArg Prod.fst hs).symm
    subst hres
    have hgo : signInputsGo (baseMessage t) (keyPairsOf keys) t.inputs = (inputs2, none) := heq
    obtain ⟨ho, hf⟩ := signInputsGo_ok_preserves hgo
    exact ⟨rfl, rfl, rfl, rfl, rfl, ho, hf⟩

/-- Claim C3 (counterexample): both signings succeed, yet the second
signing of the already-signed transaction produces a different first-input
fulfillment signature and a different id than the first signing did:
sign is not idempotent. -/
theorem C3_sign_idempotence_counterexample :
    (sign c3t0 ["a"]).2 = none ∧ (sign c3t1 ["a"]).2 = none ∧
    firstSig c3t2 ≠ firstSig c3t1 ∧ c3t2.hash_id ≠ c3t1.hash_id := by
  refine ⟨rfl, rfl, by decide, by decide⟩

/-- Claim C3 witness: the amended preservation applied to the concrete
first signing. -/
theorem C3_sign_idempotence_witness :
    c3t1.outputs = c3t0.outputs ∧
    c3t1.inputs.map Input.owners_before = c3t0.inputs.map Input.owners_before := by
  have h := C3_sign_idempotence_amended c3t0 ["a"] c3t1 (by rfl)
  exact ⟨h.2.2.2.2.1, h.2.2.2.2.2.1⟩

/-- Claim C6: with every input resolved (no InputDoesNotExist, no spent
hit, no dangling output index), validate_transfer_inputs raises AmountError
exactly when it reaches the amount check — the fulfilled links pairwise
distinct and the asset-id stage passing — and the sum of the referenced
output amounts differs from the sum of the transaction's own output
amounts.  Sums are exact (Python integers are unbounded, so no term can
overflow). -/
theorem C6_amount_conservation :
    ∀ (t : Transaction) (planet : Planet) (cur : List Transaction)
      (conds : List Output) (txs : List Transaction),
      resolveInputs planet cur t.inputs = .ok (conds, txs) →
      (validate_transfer_inputs t planet cur = .error .amountError ↔
        ((t.inputs.map linkUriOf).length = (t.inputs.map linkUriOf).dedup.length ∧
         assetStage t txs = .ok () ∧
         (t.outputs.map (fun o => o.amount)).sum ≠ (conds.map (fun o => o.amount)).sum)) := by
  intro t planet cur conds txs hres
  unfold validate_transfer_inputs
  split
  · next e heq => rw [hres] at heq; cases heq
  · next ics itxs heq =>
    rw [hres] at heq
    injection heq with heq
    injection heq with h1 h2
    subst h1; subst h2
    by_cases hlen : (t.inputs.map linkUriOf).length = (t.inputs.map linkUriOf).dedup.length
    · rw [if_neg (fun hne => hne hlen)]
      split
      · next e heqA =>
        refine iff_of_false ?_ ?_
        · intro h
          injection h with h2
          rcases assetStage_error heqA with h1 | h1 | h1 <;> (subst h1; exact absurd h2 (by decide))
        · rintro ⟨_, hA, _⟩
          rw [heqA] at hA
          cases hA
      · next u heqA =>
        by_cases hsum : (t.outputs.map (fun o => o.amount)).sum ≠ (conds.map (fun o => o.amount)).sum
        · rw [if_pos hsum]
          refine iff_of_true rfl ⟨hlen, ?_, hsum⟩
          rw [heqA]
        · rw [if_neg hsum]
          refine iff_of_false ?_ (fun h => hsum h.2.2)
          split
          · next e heqV =>
            intro h
            injection h with h2
            rcases inputs_valid_error heqV with h1 | h1 | h1 <;>
              (subst h1; exact absurd h2 (by decide))
          · intro h; cases h
          · intro h; injection h with h2; exact absurd h2 (by decide)
    · rw [if_pos hlen]
      refine iff_of_false ?_ (fun h => hlen h.1)
      intro h
      injection h with h2
      exact absurd h2 (by decide)

/-- Claim C6 witness: spending a stored 5-token output into a 6-token
output yields AmountError. -/
theorem C6_amount_conservation_witness :
    validate_transfer_inputs w6spend w6planet [] = .error .amountError := by
  exact (C6_amount_conservation w6spend w6planet [] [w6out] [w6tx0] (by rfl)).mpr
    ⟨by decide, by rfl, by decide⟩

/-- Claim C7: with every input resolved, validate_transfer_inputs raises
DoubleSpend exactly when the fulfilled links of this transaction are NOT
pairwise distinct; in particular a transaction whose inputs fulfill two
distinct outputs of the same prior transaction passes the check (see the
witness). -/
theorem C7_pairwise_distinct_links :
    ∀ (t : Transaction) (planet : Planet) (cur : List Transaction)
      (conds : List Output) (txs : List Transaction),
      resolveInputs planet cur t.inputs = .ok (conds, txs) →
      (validate_transfer_inputs t planet cur = .error .doubleSpend ↔
        ¬ (t.inputs.map linkUriOf).Nodup) := by
  intro t planet cur conds txs hres
  unfold validate_transfer_inputs
  split
  · next e heq => rw [hres] at heq; cases heq
  · next ics itxs heq =>
    rw [hres] at heq
    injection heq with heq
    injection heq with h1 h2
    subst h1; subst h2
    by_cases hnod : (t.inputs.map linkUriOf).Nodup
    · have hlen : (t.inputs.map linkUriOf).length = (t.inputs.map linkUriOf).dedup.length :=
        (dedup_len_iff _).mpr hnod
      rw [if_neg (fun hne => hne hlen)]
      have hrhs : ¬ ¬ (t.inputs.map linkUriOf).Nodup := fun hn => hn hnod
      split
      · next e heqA =>
        refine iff_of_false ?_ hrhs
        intro h
        injection h with h2
        rcases assetStage_error heqA with h1 | h1 | h1 <;> (subst h1; exact absurd h2 (by decide))
      · next u heqA =>
        by_cases hsum : (t.outputs.map (fun o => o.amount)).sum ≠ (conds.map (fun o => o.amount)).sum
        · rw [if_pos hsum]
          refine iff_of_false ?_ hrhs
          intro h
          injection h with h2
          exact absurd h2 (by decide)
        · rw [if_neg hsum]
          refine iff_of_false ?_ hrhs
          split
          · next e heqV =>
            intro h
            injection h with h2
            rcases inputs_valid_error heqV with h1 | h1 | h1 <;>
              (subst h1; exact absurd h2 (by decide))
          · intro h; cases h
          · intro h; injection h with h2; exact absurd h2 (by decide)
    · have hlen : (t.inputs.map linkUriOf).length ≠ (t.inputs.map linkUriOf).dedup.length :=
        fun hleneq => hnod ((dedup_len_iff _).mp hleneq)
      rw [if_pos hlen]
      exact iff_of_true rfl hnod

/-- Claim C7 witness: fulfilling the two DISTINCT outputs (t0, 0) and
(t0, 1) of the same prior transaction does not raise DoubleSpend. -/
theorem C7_pairwise_distinct_links_witness :
    validate_transfer_inputs w7spend w7planet [] ≠ .error .doubleSpend := by
  intro h
  exact ((C7_pairwise_distinct_links w7spend w7planet [] [w7outA, w7outB] [w7tx0, w7tx0]
          (by rfl)).mp h) (by decide)

theorem input_valid_ok_false {ob : List String} {fl : Option TransactionLink}
    {f : Ffill} {op msg u : String} {e : Err}
    (herr : serializeThenParse f = .error e) :
    input_valid ⟨some f, ob, fl⟩ op msg u = .ok false := by
  have he := serializeThenParse_error herr
  subst he
  simp [input_valid, herr, caughtInInputValid]

theorem input_valid_isSome_ok {inp : Input} {op msg u : String}
    (h : inp.fulfillment.isSome) :
    ∃ b, input_valid inp op msg u = .ok b := by
  cases hf : inp.fulfillment with
  | none => rw [hf] at h; cases h
  | some f =>
    cases hc : serializeThenParse f with
    | error e =>
      have he := serializeThenParse_error hc
      subst he
      exact ⟨false, by simp [input_valid, hf, hc, caughtInInputValid]⟩
    | ok parsed =>
      exact ⟨(if op = "CREATE" then true else u == conditionUri f) &&
               ffillValidate parsed (hash_data (msg ++ fulfillsSuffix inp.fulfills)),
             by simp [input_valid, hf, hc]⟩

theorem mem_zip_of_mem_left {α β : Type} :
    ∀ {l1 : List α} {l2 : List β} {x : α},
    l1.length = l2.length → x ∈ l1 → ∃ y, (x, y) ∈ l1.zip l2 := by
  intro l1
  induction l1 with
  | nil => intro l2 x _ hx; cases hx
  | cons a as ih =>
    intro l2 x hlen hx
    cases l2 with
    | nil => simp at hlen
    | cons b bs =>
      rcases List.mem_cons.mp hx with h | h
      · subst h
        exact ⟨b, by simp [List.zip_cons_cons]⟩
      · obtain ⟨y, hy⟩ := ih (by simpa using hlen) h
        exact ⟨y, by simp [List.zip_cons_cons]; exact Or.inr hy⟩

/-- Claim C10: an input whose fulfillment cannot be serialized and
re-parsed as a crypto-condition fulfillment URI makes _input_valid return
False rather than propagate the exception, so _inputs_valid reports False
for the whole transaction instead of raising (every other input having a
fulfillment object to inspect). -/
theorem C10_parse_failure_returns_false :
    ∀ (t : Transaction) (uris : List String) (inp : Input) (f : Ffill) (e : Err),
      uris.length = t.inputs.length →
      (∀ j ∈ t.inputs, j.fulfillment.isSome) →
      inp ∈ t.inputs →
      inp.fulfillment = some f →
      serializeThenParse f = .error e →
      inputs_valid_inner t uris = .ok false := by
  intro t uris inp f e hlen hall hmem hf herr
  unfold inputs_valid_inner
  rw [if_neg (fun hc => hc hlen.symm)]
  apply allE_ok_false
  · intro p hp
    exact input_valid_isSome_ok (hall p.1 (List.of_mem_zip hp).1)
  · obtain ⟨u, hu⟩ := mem_zip_of_mem_left hlen.symm hmem
    refine ⟨(inp, u), hu, ?_⟩
    have hshape : inp = ⟨some f, inp.owners_before, inp.fulfills⟩ := by
      cases inp with
      | mk ful ob fl => simp at hf ⊢; exact hf
    rw [hshape]
    exact input_valid_ok_false herr

/-- Claim C10 witness: one unsigned Ed25519 input (whose URI serialization
fails), checked against a dummy condition list. -/
theorem C10_parse_failure_returns_false_witness :
    inputs_valid_inner c10tx ["dummyvalue"] = .ok false := by
  exact C10_parse_failure_returns_false c10tx ["dummyvalue"] c10inp
    (.ed25519 "pub:a" none) .asn1EncodeError rfl
    (by intro j hj; simp [c10tx] at hj; subst hj; rfl)
    (by simp [c10tx])
    rfl rfl

theorem mapME_ok_of_pointwise {α β : Type} {f : α → Except Err β} {g : β → α} :
    ∀ {l : List α}, (∀ x ∈ l, ∃ y, f x = .ok y ∧ g y = x) →
    ∃ ys, mapME f l = .ok ys ∧ ys.map g = l := by
  intro l
  induction l with
  | nil => intro _; exact ⟨[], rfl, rfl⟩
  | cons x xs ih =>
    intro h
    obtain ⟨y, hy, hgy⟩ := h x (List.mem_cons_self x xs)
    obtain ⟨ys, hys, hgys⟩ := ih (fun z hz => h z (List.mem_cons_of_mem x hz))
    refine ⟨y :: ys, ?_, ?_⟩
    · rw [mapME, hy, hys]
    · simp [hgy, hgys]

theorem inputToDict_round {ob : List String} {fl : Option TransactionLink} {f : Ffill}
    (hs : f.isSigned = true) :
    inputToDict { fulfillment := some f, owners_before := ob, fulfills := fl } =
      { owners_before := ob, fulfills := fl, fulfillment := some (.uri f) } := by
  simp [inputToDict, serializeUri, hs]

theorem txInit_ok_of_wf {op : String} {asset : Json} {ins : List Input}
    {outs : List Output} {md : Option Json} {ver : Option String}
    {hid : Option String} {txd : Option TxWire}
    (hop : op = "CREATE" ∨ op = "TRANSFER")
    (hca : op = "CREATE" → jsonBEq asset Json.null = true ∨ (asset.isObj ∧ asset.hasKey "data"))
    (hta : op = "TRANSFER" → asset.isObj ∧ asset.hasKey "id")
    (hmd : ∀ m, md = some m → m.isObj) :
    txInit op asset ins outs md ver hid txd =
      .ok { operation := op, asset := asset, inputs := ins, outputs := outs,
            metadata := md, version := ver.getD "2.0", hash_id := hid, tx_dict := txd } := by
  unfold txInit
  rw [if_neg (fun hc => hop.elim hc.1 hc.2)]
  rw [if_neg (fun hc => (hca hc.1).elim
        (fun hb => by rw [hb] at hc; exact absurd hc.2.1 (by decide)) hc.2.2)]
  rw [if_neg (fun hc => hc.2 (hta hc.1))]
  cases hm : md with
  | none => rfl
  | some m =>
    have h := hmd m hm
    simp [h]

/-- Claim C8: from_dict followed by to_dict is the identity on well-formed
transaction dicts (wire shape of section 6 of the spec: CREATE or TRANSFER
operation, matching asset shape, object-or-null metadata, signed
fulfillment URIs, output uri matching details, positive amounts).  Key
ordering is a non-issue in this embedding: dicts are rendered with sorted
keys only at serialization time. -/
theorem C8_dict_round_trip :
    ∀ w : TxWire, WfTxWire w → (from_dict w).map to_dict = .ok w := by
  intro w hwf
  obtain ⟨wid, wver, wop, wasset, wmeta, wins, wouts⟩ := w
  obtain ⟨hop, hca, hta, hmeta, hins, houts⟩ := hwf
  simp only at hop hca hta hmeta hins houts
  obtain ⟨ins, hins1, hins2⟩ :
      ∃ ys, mapME inputFromDict wins = .ok ys ∧ ys.map inputToDict = wins := by
    apply mapME_ok_of_pointwise
    intro i hi
    obtain ⟨f, hf, hsig⟩ := hins i hi
    refine ⟨{ fulfillment := some f, owners_before := i.owners_before, fulfills := i.fulfills },
            ?_, ?_⟩
    · unfold inputFromDict
      rw [hf]
    · rw [inputToDict_round hsig]
      cases i with
      | mk ob fl ful =>
        simp only at hf
        rw [← hf]
  obtain ⟨outs, houts1, houts2⟩ :
      ∃ ys, mapME outputFromDict wouts = .ok ys ∧ ys.map outputToDict = wouts := by
    apply mapME_ok_of_pointwise
    intro o ho
    obtain ⟨hstrip, huri, hamt⟩ := houts o ho
    refine ⟨{ fulfillment := o.details, public_keys := o.public_keys, amount := o.amount },
            ?_, ?_⟩
    · unfold outputFromDict
      rw [if_neg (by omega)]
    · unfold outputToDict
      cases o with
      | mk pk am det uri =>
        simp only at hstrip huri ⊢
        rw [hstrip, ← huri]
  unfold from_dict
  rw [hins1, houts1]
  show (txInit wop wasset ins outs wmeta (some wver) wid
          (some ⟨wid, wver, wop, wasset, wmeta, wins, wouts⟩)).map to_dict =
       .ok ⟨wid, wver, wop, wasset, wmeta, wins, wouts⟩
  rw [txInit_ok_of_wf hop
        (fun hC => (hca hC).elim (fun hnull => Or.inl (by rw [hnull]; rfl)) Or.inr)
        hta hmeta]
  show Except.ok (to_dict { operation := wop, asset := wasset, inputs := ins, outputs := outs,
                            metadata := wmeta, version := (some wver).getD "2.0",
                            hash_id := wid,
                            tx_dict := some ⟨wid, wver, wop, wasset, wmeta, wins, wouts⟩ }) =
       .ok ⟨wid, wver, wop, wasset, wmeta, wins, wouts⟩
  unfold to_dict
  simp only
  rw [hins2, houts2]
  rfl

/-- Claim C8 witness: the concrete well-formed wire dict c8w survives the
round trip. -/
theorem C8_dict_round_trip_witness : (from_dict c8w).map to_dict = .ok c8w := by
  apply C8_dict_round_trip
  refine ⟨Or.inl rfl, fun _ => Or.inl rfl, fun h => absurd h (by decide), ?_, ?_, ?_⟩
  · intro m hm; cases hm
  · intro i hi
    simp [c8w] at hi
    subst hi
    exact ⟨.ed25519 "pub:a" (some "s1"), rfl, rfl⟩
  · intro o ho
    simp [c8w] at ho
    subst ho
    exact ⟨rfl, rfl, by decide⟩

/-- Claim C1 witness: the id written by the concrete first signing passes
validate_id. -/
theorem C1_id_scheme_amended_witness : validate_id (to_dict c3t1) = .ok () :=
  C1_id_scheme_amended.2 c3t0 ["a"] c3t1 rfl (by rfl)
